import Mathlib

/-!
Verification development for the ibisgraph repository: a shallow embedding of
`src/ibisgraph/graph.py` and `src/ibisgraph/pregel/pregel.py` (plus the small
dataclasses of `src/ibisgraph/pregel/models.py`) over an executable relational
model, together with theorems settling the specification claims about the
Pregel driver and the graph wrapper.

The relational backend (ibis + duckdb in the source) is modelled by in-memory
tables: a table is a schema (column names with declared types) plus a list of
rows, a row being an association list from column names to values.  Lazy ibis
expressions become a small deep-embedded expression language `Expr` evaluated
row-wise; evaluation is fallible (`Except PError`) so that referencing an
absent column or struct field surfaces as an error, the way an ibis plan
fails to compile.  `Table.cache` (ibis `.cache()`) is the identity on
contents, which is exactly the backend contract the driver relies on.
-/

/-- SQL-style values flowing through the model: NULL, integers, booleans, and
structs (used by the driver to pack whole rows, `ibis.struct(...)`). -/
inductive Val where
  | null : Val
  | int : Int → Val
  | bool : Bool → Val
  | struct : List (String × Val) → Val

/-- A row: an association list from column names to values. -/
abbrev Row : Type := List (String × Val)

/-- Declared column types, as far as `graph.py` inspects them
(`schema()[col].is_integer()`). -/
inductive ColType where
  | intT : ColType
  | boolT : ColType
  | floatT : ColType
  | unknownT : ColType
deriving DecidableEq

/-- `is_integer()` of an ibis data type, restricted to the types the model
carries. -/
def ColType.is_integer : ColType → Bool
  | .intT => true
  | _ => false

/-- An ibis table: named, typed columns plus rows.  Computed columns produced
by a `select` get the placeholder type `unknownT`; the driver never inspects
types after graph construction. -/
structure Table where
  cols : List (String × ColType)
  rows : List Row

/-- `Table.columns` — the list of column names (ibis `t.columns`). -/
def Table.columns (t : Table) : List String := t.cols.map Prod.fst

/-- Errors surfaced while building or executing a plan.  `valueError` models a
Python `ValueError` raised by the driver itself; the other constructors model
the backend rejecting a reference to an absent column or struct field, or an
ill-typed operation. -/
inductive PError where
  | valueError : String → PError
  | missingColumn : String → PError
  | missingField : String → String → PError
  | typeError : PError
deriving DecidableEq

/-- NULL test on a value. -/
def Val.isNull : Val → Bool
  | .null => true
  | _ => false

/-- SQL equality used in join predicates: NULL compares equal to nothing. -/
def Val.eqb : Val → Val → Bool
  | .int a, .int b => a == b
  | .bool a, .bool b => a == b
  | _, _ => false

/-- Key equality used by GROUP BY / DISTINCT, where NULLs group together. -/
def Val.keyEq : Val → Val → Bool
  | .null, .null => true
  | .int a, .int b => a == b
  | .bool a, .bool b => a == b
  | _, _ => false

/-- `cast("bool")` on a value: booleans pass through, NULL stays NULL,
integers cast by non-zeroness, anything else is a type error. -/
def Val.castBool : Val → Except PError Val
  | .bool b => .ok (.bool b)
  | .null => .ok .null
  | .int n => .ok (.bool (n != 0))
  | _ => .error .typeError

/-- Three-valued OR (`ibis.or_`) over boolean-or-NULL operands. -/
def Val.orv : Val → Val → Val
  | .bool true, _ => .bool true
  | _, .bool true => .bool true
  | .null, _ => .null
  | _, .null => .null
  | .bool false, .bool false => .bool false
  | _, _ => .null

/-- The deep-embedded fragment of ibis expressions the driver and its concrete
configurations need: column references (`ibis._[c]`), struct-field projection
(`ibis._[c][f]`), literals, NULL tests, three-valued connectives, integer
arithmetic/comparison and conditionals. -/
inductive Expr where
  | col : String → Expr
  | field : String → String → Expr
  | lit : Val → Expr
  | isNotNull : Expr → Expr
  | orE : Expr → Expr → Expr
  | andE : Expr → Expr → Expr
  | notE : Expr → Expr
  | eqE : Expr → Expr → Expr
  | leE : Expr → Expr → Expr
  | addE : Expr → Expr → Expr
  | maxE : Expr → Expr → Expr
  | iteE : Expr → Expr → Expr → Expr

/-- Three-valued AND. -/
def Val.andv : Val → Val → Val
  | .bool false, _ => .bool false
  | _, .bool false => .bool false
  | .null, _ => .null
  | _, .null => .null
  | .bool true, .bool true => .bool true
  | _, _ => .null

/-- Three-valued NOT. -/
def Val.notv : Val → Except PError Val
  | .bool b => .ok (.bool (!b))
  | .null => .ok .null
  | _ => .error .typeError

/-- NULL-propagating lift of a binary integer operation. -/
def Val.intOp (f : Int → Int → Val) : Val → Val → Except PError Val
  | .null, _ => .ok .null
  | _, .null => .ok .null
  | .int a, .int b => .ok (f a b)
  | _, _ => .error .typeError

/-- Row-wise evaluation of an expression.  A reference to an absent column or
struct field is an error, mirroring the backend rejecting the plan. -/
def Expr.eval : Expr → Row → Except PError Val
  | .col c, r =>
    match List.lookup c r with
    | some v => .ok v
    | none => .error (.missingColumn c)
  | .field c f, r =>
    match List.lookup c r with
    | some (.struct fs) =>
      match List.lookup f fs with
      | some v => .ok v
      | none => .error (.missingField c f)
    | some _ => .error .typeError
    | none => .error (.missingColumn c)
  | .lit v, _ => .ok v
  | .isNotNull e, r => do
    let v ← e.eval r
    pure (.bool (!v.isNull))
  | .orE a b, r => do
    let x ← a.eval r
    let y ← b.eval r
    pure (x.orv y)
  | .andE a b, r => do
    let x ← a.eval r
    let y ← b.eval r
    pure (x.andv y)
  | .notE a, r => do
    let x ← a.eval r
    x.notv
  | .eqE a b, r => do
    let x ← a.eval r
    let y ← b.eval r
    if x.isNull || y.isNull then pure .null else pure (.bool (x.eqb y))
  | .leE a b, r => do
    let x ← a.eval r
    let y ← b.eval r
    Val.intOp (fun i j => .bool (i ≤ j)) x y
  | .addE a b, r => do
    let x ← a.eval r
    let y ← b.eval r
    Val.intOp (fun i j => .int (i + j)) x y
  | .maxE a b, r => do
    let x ← a.eval r
    let y ← b.eval r
    Val.intOp (fun i j => .int (max i j)) x y
  | .iteE c a b, r => do
    let v ← c.eval r
    match v with
    | .bool true => a.eval r
    | .bool false => b.eval r
    | .null => pure .null
    | _ => .error .typeError

/-- Fallible map over a list (the shape a row-wise plan execution takes). -/
def exceptMap {α β : Type} (f : α → Except PError β) : List α → Except PError (List β)
  | [] => .ok []
  | a :: as => do
    let b ← f a
    let bs ← exceptMap f as
    pure (b :: bs)

/-- Fallible filter over a list. -/
def exceptFilter {α : Type} (f : α → Except PError Bool) : List α → Except PError (List α)
  | [] => .ok []
  | a :: as => do
    let keep ← f a
    let rest ← exceptFilter f as
    pure (if keep then a :: rest else rest)

/-- Evaluate a projection list on one row, producing the projected row. -/
def selectRow (cs : List (String × Expr)) (r : Row) : Except PError Row :=
  exceptMap (fun ne => (Expr.eval ne.2 r).map (fun v => (ne.1, v))) cs

/-- `t.select(...)` — project every row through the given named expressions.
Computed columns receive the placeholder type. -/
def Table.select (t : Table) (cs : List (String × Expr)) : Except PError Table := do
  let rows ← exceptMap (selectRow cs) t.rows
  pure { cols := cs.map (fun ne => (ne.1, ColType.unknownT)), rows := rows }

/-- `ibis.struct({col: ibis._[col] for col in t.columns})` followed by a
select: pack every row into a single struct column. -/
def Table.packStruct (t : Table) (name : String) : Table :=
  { cols := [(name, ColType.unknownT)],
    rows := t.rows.map (fun r => [(name, Val.struct r)]) }

/-- `.cache()` — materialize and cache; contents are unchanged. -/
def Table.cache (t : Table) : Table := t

/-- `t.drop(c)` — remove the named column. -/
def Table.drop (t : Table) (c : String) : Table :=
  { cols := t.cols.filter (fun nc => nc.1 ≠ c),
    rows := t.rows.map (fun r => r.filter (fun nv => nv.1 ≠ c)) }

/-- `t.rename({new: old})` as a total contents transformation. -/
def Table.rename (t : Table) (new old : String) : Table :=
  { cols := t.cols.map (fun nc => (if nc.1 = old then new else nc.1, nc.2)),
    rows := t.rows.map (fun r => r.map (fun nv => (if nv.1 = old then new else nv.1, nv.2))) }

/-- Type of a named column, when present. -/
def Table.colType (t : Table) (c : String) : Option ColType :=
  List.lookup c t.cols

/-- Whether the named column exists and is integer-typed. -/
def Table.hasIntCol (t : Table) (c : String) : Bool :=
  match t.colType c with
  | some ty => ty.is_integer
  | none => false

/-! ## Graph wrapper (`src/ibisgraph/graph.py`) -/

/-- Errors of graph construction: `schemaError` for the explicit `ValueError`
raises of `IbisGraph.__init__` (the spec's `SchemaError` kind), `renameError`
for a rename of a column that does not exist (a backend failure, not one of
the constructor's own checks). -/
inductive GraphError where
  | schemaError : String → GraphError
  | renameError : GraphError
deriving DecidableEq

/-- `t.rename({new: old})` as the backend performs it: fails when the old
column is absent. -/
def Table.renameE (t : Table) (new old : String) : Except GraphError Table :=
  if old ∈ t.columns then .ok (t.rename new old) else .error .renameError

/-- The graph abstraction: vertex and edge relations with canonical column
names, plus the `directed` / `is_weighted` flags (`IbisGraph`). -/
structure IbisGraph where
  _nodes : Table
  _edges : Table
  _directed : Bool
  _is_weighted : Bool

/-- `IbisGraph.__init__`: validate the nominated id/src/dst columns (presence
and integer type), then rename them — and the optional weight column — to the
canonical names `id_`, `src_`, `dst_`, `weight_`. -/
def IbisGraph.construct (nodes edges : Table) (directed : Bool)
    (id_col src_col dst_col : String) (weight_col : Option String) :
    Except GraphError IbisGraph :=
  if id_col ∉ nodes.columns then
    .error (.schemaError "ID column is not present")
  else if ¬ nodes.hasIntCol id_col then
    .error (.schemaError "ID data type is not integer-like")
  else if src_col ∉ edges.columns then
    .error (.schemaError "SRC column is not present")
  else if dst_col ∉ edges.columns then
    .error (.schemaError "DST column is not present")
  else if ¬ edges.hasIntCol src_col then
    .error (.schemaError "SRC data type is not integer-like")
  else if ¬ edges.hasIntCol dst_col then
    .error (.schemaError "DST data type is not integer-like")
  else do
    let nodes' ← nodes.renameE "id_" id_col
    let edges' ← edges.renameE "src_" src_col
    let edges' ← edges'.renameE "dst_" dst_col
    match weight_col with
    | some w => do
      let edges' ← edges'.renameE "weight_" w
      pure { _nodes := nodes', _edges := edges', _directed := directed, _is_weighted := true }
    | none =>
      pure { _nodes := nodes', _edges := edges', _directed := directed, _is_weighted := false }

/-! ## Pregel models (`src/ibisgraph/pregel/models.py`) -/

/-- A declared state column: name, initial expression, update expression. -/
structure PregelVertexColumn where
  col_name : String
  initial_expr : Expr
  update_expr : Expr

/-- A message declaration: target id expression and message expression. -/
structure PregelMessage where
  target_column : Expr
  msg_expr : Expr

/-! ## Pregel builder (`src/ibisgraph/pregel/pregel.py`) -/

/-- The Pregel driver's configuration state.  `_vertex_cols` is a Python dict
keyed by column name, modelled as an insertion-ordered association list. -/
structure Pregel where
  _graph : IbisGraph
  _has_active_flag : Bool
  _initial_active_flag : Expr
  _vertex_cols : List (String × PregelVertexColumn)
  _messages : List PregelMessage
  _agg_expression_func : Option (List Val → Val)
  _do_early_stopping : Bool
  _max_iter : Nat
  _checkpoint_interval : Nat
  _active_flag_upd_expr : Option Expr
  _filter_messages_from_non_active : Bool
  _stop_if_all_non_active : Bool

/-- `Pregel.__init__(graph)` — the defaults of a fresh instance. -/
def Pregel.init (graph : IbisGraph) : Pregel :=
  { _graph := graph
    _has_active_flag := false
    _initial_active_flag := Expr.lit (Val.bool true)
    _vertex_cols := []
    _messages := []
    _agg_expression_func := none
    _do_early_stopping := true
    _max_iter := 10
    _checkpoint_interval := 1
    _active_flag_upd_expr := none
    _filter_messages_from_non_active := false
    _stop_if_all_non_active := false }

/-- Python dict assignment `d[k] = v`: replace the existing entry in place,
else append. -/
def dictInsert (k : String) (v : PregelVertexColumn) :
    List (String × PregelVertexColumn) → List (String × PregelVertexColumn)
  | [] => [(k, v)]
  | kv :: rest => if kv.1 = k then (k, v) :: rest else kv :: dictInsert k v rest

/-- Python `if k in d: d.pop(k)`: remove the entry when present, else no-op. -/
def dictErase (k : String) :
    List (String × PregelVertexColumn) → List (String × PregelVertexColumn)
  | [] => []
  | kv :: rest => if kv.1 = k then rest else kv :: dictErase k rest

/-- `add_vertex_col(col_name, initial_expr, update_expr)`. -/
def Pregel.add_vertex_col (p : Pregel) (col_name : String)
    (initial_expr update_expr : Expr) : Pregel :=
  { p with _vertex_cols :=
      dictInsert col_name ⟨col_name, initial_expr, update_expr⟩ p._vertex_cols }

/-- `remove_vertex_col(col_name)`. -/
def Pregel.remove_vertex_col (p : Pregel) (col_name : String) : Pregel :=
  { p with _vertex_cols := dictErase col_name p._vertex_cols }

/-- `pregel_src(col)` = `ibis._["src_"][col]`. -/
def Pregel.pregel_src (col_name : String) : Expr := Expr.field "src_" col_name

/-- `pregel_dst(col)` = `ibis._["dst_"][col]`. -/
def Pregel.pregel_dst (col_name : String) : Expr := Expr.field "dst_" col_name

/-- `pregel_edge(col)` = `ibis._["edge_"][col]`. -/
def Pregel.pregel_edge (col_name : String) : Expr := Expr.field "edge_" col_name

/-- `pregel_msg()` = `ibis._["_pregel_msg"]`. -/
def Pregel.pregel_msg : Expr := Expr.col "_pregel_msg"

/-- `add_message_to_src(message)` — target is the source endpoint's id. -/
def Pregel.add_message_to_src (p : Pregel) (message : Expr) : Pregel :=
  { p with _messages := p._messages ++ [⟨Pregel.pregel_src "id_", message⟩] }

/-- `add_message_to_dst(message)` — target is the destination endpoint's id. -/
def Pregel.add_message_to_dst (p : Pregel) (message : Expr) : Pregel :=
  { p with _messages := p._messages ++ [⟨Pregel.pregel_dst "id_", message⟩] }

/-- `set_has_active_flag(value)`. -/
def Pregel.set_has_active_flag (p : Pregel) (value : Bool) : Pregel :=
  { p with _has_active_flag := value }

/-- `set_initial_active_flag(expression)` — also enables the flag. -/
def Pregel.set_initial_active_flag (p : Pregel) (expression : Expr) : Pregel :=
  { p with _has_active_flag := true, _initial_active_flag := expression }

/-- `set_agg_expression_func(expression)`. -/
def Pregel.set_agg_expression_func (p : Pregel) (f : List Val → Val) : Pregel :=
  { p with _agg_expression_func := some f }

/-- `set_early_stopping(value)`. -/
def Pregel.set_early_stopping (p : Pregel) (value : Bool) : Pregel :=
  { p with _do_early_stopping := value }

/-- `set_max_iter(value)` — `ValueError` on a non-positive argument; on
success only `_max_iter` changes. -/
def Pregel.set_max_iter (p : Pregel) (value : Int) : Except PError Pregel :=
  if value ≤ 0 then
    .error (.valueError "Expected positive integer.")
  else
    .ok { p with _max_iter := value.toNat }

/-- `set_checkpoint_interval(value)` — `ValueError` on a negative argument; on
success only `_checkpoint_interval` changes. -/
def Pregel.set_checkpoint_interval (p : Pregel) (value : Int) : Except PError Pregel :=
  if value < 0 then
    .error (.valueError "Expected non-negative integer.")
  else
    .ok { p with _checkpoint_interval := value.toNat }

/-- `set_active_flag_upd_col(expression)`. -/
def Pregel.set_active_flag_upd_col (p : Pregel) (expression : Expr) : Pregel :=
  { p with _active_flag_upd_expr := some expression }

/-- `set_filter_messages_from_non_active(value)`. -/
def Pregel.set_filter_messages_from_non_active (p : Pregel) (value : Bool) : Pregel :=
  { p with _filter_messages_from_non_active := value }

/-- `set_stop_if_all_unactive(value)`. -/
def Pregel.set_stop_if_all_unactive (p : Pregel) (value : Bool) : Pregel :=
  { p with _stop_if_all_non_active := value }

/-- `Pregel._validate()` — the three `run()` preconditions, checked in the
source's order. -/
def Pregel.validate (p : Pregel) : Except PError Unit :=
  if p._agg_expression_func.isNone then
    .error (.valueError "AggExpression should be provided!")
  else if p._messages.length = 0 then
    .error (.valueError "At least one message (to src or to dst) should be provided!")
  else if p._vertex_cols.length = 0 then
    .error (.valueError "At least one vertex column should be prvided!")
  else
    .ok ()

/-! ## Superstep planner and driver loop (`Pregel.run`) -/

/-- Struct-field access used by join predicates: `row[c][f]` as an `Option`
(the join keys `id_`/`src_`/`dst_` always exist on driver-built rows; a miss
simply fails the predicate). -/
def rowStructField (r : Row) (c f : String) : Option Val :=
  match List.lookup c r with
  | some (.struct fs) => List.lookup f fs
  | _ => none

/-- The join predicate `left[c1][f1] == right[c2][f2]` with SQL equality. -/
def joinPred (r : Row) (c1 f1 c2 f2 : String) : Bool :=
  match rowStructField r c1 f1, rowStructField r c2 f2 with
  | some a, some b => a.eqb b
  | _, _ => false

/-- Step A/B: the two inner joins forming triplets,
`src_nodes_data ⋈ edges ⋈ dst_nodes_data` on `src_.id_ = edge_.src_` and
`dst_.id_ = edge_.dst_`.  `src` and `dst` are the struct-packed copies of the
state; `edges` is the struct-packed edge table.  Each triplet row is
`src-struct ++ edge-struct ++ dst-struct`. -/
def rawTriplets (src dst edges : Table) : List Row :=
  src.rows.flatMap (fun sr =>
    edges.rows.flatMap (fun er =>
      if joinPred (sr ++ er) "src_" "id_" "edge_" "src_" then
        dst.rows.flatMap (fun dr =>
          if joinPred (er ++ dr) "dst_" "id_" "edge_" "dst_" then
            [sr ++ er ++ dr]
          else [])
      else []))

/-- Step C: the optional active filter,
`triplets.filter(ibis.or_(src_active, dst_active))` with
`src_active = triplets["src_"]["_active_flag"].cast("bool")` (and likewise for
`dst_`).  A row is kept when the three-valued condition is TRUE. -/
def activeFilterPred (r : Row) : Except PError Bool := do
  let sa ←
    match List.lookup "src_" r with
    | some (.struct fs) =>
      match List.lookup "_active_flag" fs with
      | some v => Except.ok v
      | none => Except.error (.missingField "src_" "_active_flag")
    | some _ => Except.error .typeError
    | none => Except.error (.missingColumn "src_")
  let sa ← sa.castBool
  let da ←
    match List.lookup "dst_" r with
    | some (.struct fs) =>
      match List.lookup "_active_flag" fs with
      | some v => Except.ok v
      | none => Except.error (.missingField "dst_" "_active_flag")
    | some _ => Except.error .typeError
    | none => Except.error (.missingColumn "dst_")
  let da ← da.castBool
  pure (match sa.orv da with
        | .bool true => true
        | _ => false)

/-- Steps A–C for one superstep: pack the state twice, join with the packed
edges, and apply the active filter when configured. -/
def Pregel.stepTriplets (p : Pregel) (edges state : Table) : Except PError (List Row) := do
  let src_nodes_data := state.packStruct "src_"
  let dst_nodes_data := state.packStruct "dst_"
  let triplets := rawTriplets src_nodes_data dst_nodes_data edges
  if p._filter_messages_from_non_active then
    exceptFilter activeFilterPred triplets
  else
    pure triplets

/-- Steps D–E: evaluate every message declaration on every triplet
(`ibis.array(messages).unnest()` yields one row per triplet × declaration),
then drop NULL messages and project `{id_, _pregel_msg}`. -/
def Pregel.stepMessages (p : Pregel) (triplets : List Row) : Except PError Table := do
  let pairs ← exceptMap
    (fun te => do
      let tid ← Expr.eval (te.2 : PregelMessage).target_column te.1
      let mv ← Expr.eval (te.2 : PregelMessage).msg_expr te.1
      pure (tid, mv))
    (triplets.flatMap (fun r => p._messages.map (fun m => (r, m))))
  let kept := pairs.filter (fun iv => !iv.2.isNull)
  pure { cols := [("id_", ColType.unknownT), ("_pregel_msg", ColType.unknownT)],
         rows := kept.map (fun iv => [("id_", iv.1), ("_pregel_msg", iv.2)]) }

/-- DISTINCT over a value list (first-occurrence order, NULLs collapsed). -/
def distinctVals (seen : List Val) : List Val → List Val
  | [] => []
  | v :: rest =>
    if seen.any (fun w => w.keyEq v) then distinctVals seen rest
    else v :: distinctVals (seen ++ [v]) rest

/-- Step G: `group_by("id_").agg({_pregel_msg: f(msg_col)})` — one row per
distinct target id, aggregating that id's bag of messages through the
user-supplied aggregator. -/
def groupByAgg (t : Table) (f : List Val → Val) : Table :=
  let keyOf : Row → Val := fun r => (List.lookup "id_" r).getD Val.null
  let msgOf : Row → Val := fun r => (List.lookup "_pregel_msg" r).getD Val.null
  let keys := distinctVals [] (t.rows.map keyOf)
  { cols := [("id_", ColType.unknownT), ("_pregel_msg", ColType.unknownT)],
    rows := keys.map (fun k =>
      [("id_", k),
       ("_pregel_msg", f ((t.rows.filter (fun r => (keyOf r).keyEq k)).map msgOf))]) }

/-- Step H: `state.join(aggregated, ["id_"], how="left")` — every state row,
extended with the matching aggregated row's non-key columns, or with NULLs
when no aggregated message targets this vertex. -/
def Table.leftJoin (l r : Table) (key : String) : Table :=
  { cols := l.cols ++ r.cols.filter (fun nc => nc.1 ≠ key),
    rows := l.rows.flatMap (fun lr =>
      let k := (List.lookup key lr).getD Val.null
      let ms := r.rows.filter (fun rr => ((List.lookup key rr).getD Val.null).eqb k)
      if ms.isEmpty then
        [lr ++ (r.cols.filter (fun nc => nc.1 ≠ key)).map (fun nc => (nc.1, Val.null))]
      else
        ms.map (fun rr => lr ++ rr.filter (fun nv => nv.1 ≠ key))) }

/-- Step I's projection list: every original vertex column unchanged, each
declared vertex column's update expression, then — when the flag is enabled —
the active-flag update (the custom expression if set, else
`_pregel_msg IS NOT NULL`). -/
def Pregel.newColumns (p : Pregel) : List (String × Expr) :=
  p._graph._nodes.columns.map (fun c => (c, Expr.col c))
  ++ p._vertex_cols.map (fun kv => (kv.2.col_name, kv.2.update_expr))
  ++ (if p._has_active_flag then
        [("_active_flag",
          match p._active_flag_upd_expr with
          | some e => e
          | none => Expr.isNotNull (Expr.col "_pregel_msg"))]
      else [])

/-- What one superstep reports back to the loop: the state to continue from,
whether a termination probe fired, and which backend probes executed. -/
structure StepOut where
  state : Table
  stopped : Bool
  earlyProbed : Bool
  inactiveProbed : Bool

/-- Steps G–K, reached when early stopping did not fire: aggregate, left-join,
rebuild the state, checkpoint on schedule, and run the all-inactive probe when
configured. -/
def Pregel.stepRest (p : Pregel) (new_messages_table state : Table) (it : Nat)
    (earlyProbed : Bool) : Except PError StepOut := do
  let f ←
    match p._agg_expression_func with
    | some f => Except.ok f
    | none => Except.error (.valueError "AggExpression should be provided!")
  let aggregated := groupByAgg new_messages_table f
  let joined := state.leftJoin aggregated "id_"
  let tmp ← joined.select p.newColumns
  let newState :=
    if 0 < p._checkpoint_interval ∧ it ≠ 0 ∧ it % p._checkpoint_interval = 0 then
      tmp.cache
    else
      tmp
  if p._stop_if_all_non_active then do
    let all_active ← newState.select [("_active_flag", Expr.col "_active_flag")]
    let dv := distinctVals []
      (all_active.rows.map (fun r => (List.lookup "_active_flag" r).getD Val.null))
    let stop := match dv with
      | [Val.bool false] => true
      | _ => false
    pure { state := newState, stopped := stop, earlyProbed := earlyProbed,
           inactiveProbed := true }
  else
    pure { state := newState, stopped := false, earlyProbed := earlyProbed,
           inactiveProbed := false }

/-- One iteration of the `while` loop of `Pregel.run` (`it` is the counter
after the `it += 1` at the top of the body). -/
def Pregel.superstep (p : Pregel) (edges state : Table) (it : Nat) :
    Except PError StepOut := do
  let triplets ← p.stepTriplets edges state
  let new_messages_table ← p.stepMessages triplets
  if p._do_early_stopping then
    if new_messages_table.rows.length = 0 then
      pure { state := state, stopped := true, earlyProbed := true, inactiveProbed := false }
    else
      p.stepRest new_messages_table state it true
  else
    p.stepRest new_messages_table state it false

/-- Counters of observable backend interactions during a run: supersteps
executed, early-stopping row-count probes, all-inactive distinct probes. -/
structure RunStats where
  iters : Nat
  earlyProbes : Nat
  inactiveProbes : Nat

/-- The `while it < max_iter` loop, fuelled by the remaining iteration
budget. -/
def pregelLoop (p : Pregel) (edges : Table) :
    Nat → Nat → Table → RunStats → Except PError (Table × RunStats)
  | 0, _, state, stats => .ok (state, stats)
  | fuel + 1, it, state, stats => do
    let it := it + 1
    let out ← p.superstep edges state it
    let stats :=
      { iters := stats.iters + 1
        earlyProbes := stats.earlyProbes + (if out.earlyProbed then 1 else 0)
        inactiveProbes := stats.inactiveProbes + (if out.inactiveProbed then 1 else 0) }
    if out.stopped then
      .ok (out.state, stats)
    else
      pregelLoop p edges fuel it out.state stats

/-- The initial projection list building `State(0)`: every original vertex
column, each declared vertex column's initial expression, then — when the flag
is enabled — the initial active-flag expression. -/
def Pregel.initColumns (p : Pregel) : List (String × Expr) :=
  p._graph._nodes.columns.map (fun c => (c, Expr.col c))
  ++ p._vertex_cols.map (fun kv => (kv.2.col_name, kv.2.initial_expr))
  ++ (if p._has_active_flag then [("_active_flag", p._initial_active_flag)] else [])

/-- `Pregel.run()`, instrumented with the probe/iteration counters: validate,
build `State(0)`, pack-and-cache the edges, loop, and drop `_active_flag` from
the final state when the flag was enabled. -/
def Pregel.runWithStats (p : Pregel) : Except PError (Table × RunStats) := do
  p.validate
  let pregel_nodes_data ← p._graph._nodes.select p.initColumns
  let edges := (p._graph._edges.packStruct "edge_").cache
  let fs ← pregelLoop p edges p._max_iter 0 pregel_nodes_data ⟨0, 0, 0⟩
  if p._has_active_flag then
    pure (fs.1.drop "_active_flag", fs.2)
  else
    pure (fs.1, fs.2)

/-- `Pregel.run()` — the returned relation. -/
def Pregel.run (p : Pregel) : Except PError Table :=
  p.runWithStats.map Prod.fst

/-! ## Helper lemmas about the relational model -/

theorem exOk_bind {α β : Type} (a : α) (f : α → Except PError β) :
    (Except.ok a >>= f) = f a := rfl

theorem exErr_bind {α β : Type} (e : PError) (f : α → Except PError β) :
    ((Except.error e : Except PError α) >>= f) = Except.error e := rfl

theorem exMap_ok {α β : Type} (a : α) (f : α → β) :
    (Except.ok a : Except PError α).map f = Except.ok (f a) := rfl

theorem exMap_err {α β : Type} (e : PError) (f : α → β) :
    (Except.error e : Except PError α).map f = Except.error e := rfl

theorem exBind_ok_iff {α β : Type} {e : Except PError α} {f : α → Except PError β} {b : β} :
    (e >>= f) = .ok b ↔ ∃ a, e = .ok a ∧ f a = .ok b := by
  cases e with
  | ok a => simp [exOk_bind]
  | error err =>
    constructor
    · intro h
      exact absurd h (by simp [exErr_bind])
    · rintro ⟨a, ha, _⟩
      cases ha

theorem exceptMap_nil {α β : Type} (f : α → Except PError β) :
    exceptMap f [] = .ok [] := rfl

theorem exceptMap_cons {α β : Type} (f : α → Except PError β) (a : α) (as : List α) :
    exceptMap f (a :: as) =
      (f a >>= fun b => exceptMap f as >>= fun bs => Except.ok (b :: bs)) := rfl

theorem exceptMap_append {α β : Type} (f : α → Except PError β) (l₁ l₂ : List α) :
    exceptMap f (l₁ ++ l₂) =
      (exceptMap f l₁ >>= fun a => (exceptMap f l₂).map (fun b => a ++ b)) := by
  induction l₁ with
  | nil =>
    cases h : exceptMap f l₂ with
    | ok b => simp [exceptMap_nil, exOk_bind, h, exMap_ok]
    | error e => simp [exceptMap_nil, exOk_bind, h, exMap_err]
  | cons a as ih =>
    cases hfa : f a with
    | ok b =>
      simp only [List.cons_append, exceptMap_cons, hfa, exOk_bind, ih]
      cases h1 : exceptMap f as with
      | ok bs =>
        cases h2 : exceptMap f l₂ with
        | ok cs => simp [exOk_bind, exErr_bind, exMap_ok, h2]
        | error e => simp [exOk_bind, exErr_bind, exMap_err, h2]
      | error e => simp [exErr_bind]
    | error e =>
      simp [List.cons_append, exceptMap_cons, hfa, exErr_bind]

theorem exceptMap_ok_mem {α β : Type} {f : α → Except PError β} :
    ∀ {l : List α} {l' : List β}, exceptMap f l = .ok l' →
      ∀ b ∈ l', ∃ a ∈ l, f a = .ok b := by
  intro l
  induction l with
  | nil =>
    intro l' h b hb
    simp only [exceptMap_nil] at h
    cases h
    cases hb
  | cons a as ih =>
    intro l' h b hb
    rw [exceptMap_cons, exBind_ok_iff] at h
    obtain ⟨b₀, hb₀, h⟩ := h
    rw [exBind_ok_iff] at h
    obtain ⟨bs, hbs, h⟩ := h
    cases h
    rcases List.mem_cons.mp hb with h | h
    · exact ⟨a, List.mem_cons_self a as, h ▸ hb₀⟩
    · obtain ⟨a', ha', hfa'⟩ := ih hbs b h
      exact ⟨a', List.mem_cons_of_mem a ha', hfa'⟩

theorem selectRow_names {cs : List (String × Expr)} :
    ∀ {r r' : Row}, selectRow cs r = .ok r' → r'.map Prod.fst = cs.map Prod.fst := by
  induction cs with
  | nil =>
    intro r r' h
    simp only [selectRow, exceptMap_nil] at h
    cases h
    rfl
  | cons c cs ih =>
    intro r r' h
    simp only [selectRow, exceptMap_cons] at h
    rw [exBind_ok_iff] at h
    obtain ⟨b, hb, h⟩ := h
    rw [exBind_ok_iff] at h
    obtain ⟨bs, hbs, h⟩ := h
    cases h
    cases hev : Expr.eval c.2 r with
    | ok v =>
      rw [hev, exMap_ok] at hb
      cases hb
      simpa using ih hbs
    | error e => rw [hev, exMap_err] at hb; cases hb

theorem select_ok_inv {t : Table} {cs : List (String × Expr)} {t' : Table}
    (h : t.select cs = .ok t') :
    t'.columns = cs.map Prod.fst ∧ exceptMap (selectRow cs) t.rows = .ok t'.rows := by
  unfold Table.select at h
  rw [exBind_ok_iff] at h
  obtain ⟨rows, hrows, h⟩ := h
  cases h
  constructor
  · simp [Table.columns]
  · exact hrows

theorem select_ok_row_names {t : Table} {cs : List (String × Expr)} {t' : Table}
    (h : t.select cs = .ok t') :
    ∀ r ∈ t'.rows, r.map Prod.fst = cs.map Prod.fst := by
  intro r hr
  obtain ⟨-, hrows⟩ := select_ok_inv h
  obtain ⟨r₀, -, hsel⟩ := exceptMap_ok_mem hrows r hr
  exact selectRow_names hsel

theorem lookup_append_right {α : Type} [DecidableEq String] {a : List (String × α)}
    (b : List (String × α)) {n : String} (h : n ∉ a.map Prod.fst) :
    List.lookup n (a ++ b) = List.lookup n b := by
  induction a with
  | nil => rfl
  | cons kv rest ih =>
    simp only [List.map_cons, List.mem_cons] at h
    push_neg at h
    have hne : (n == kv.1) = false := beq_eq_false_iff_ne.mpr h.1
    simp only [List.cons_append, List.lookup, hne]
    exact ih h.2

theorem drop_columns (t : Table) (c : String) :
    (t.drop c).columns = t.columns.filter (fun n => n ≠ c) := by
  unfold Table.drop Table.columns
  induction t.cols with
  | nil => rfl
  | cons nc rest ih =>
    by_cases h : nc.1 = c
    · simpa [List.filter, h] using ih
    · simpa [List.filter, h] using ih

/-! ## Concrete instances used by witnesses and counterexamples -/

/-- A two-vertex relation with a user-named integer id column. -/
def demoNodes : Table :=
  { cols := [("id", ColType.intT)],
    rows := [[("id", Val.int 1)], [("id", Val.int 2)]] }

/-- A one-edge relation `1 → 2` with user-named endpoint columns. -/
def demoEdges : Table :=
  { cols := [("src", ColType.intT), ("dst", ColType.intT)],
    rows := [[("src", Val.int 1), ("dst", Val.int 2)]] }

/-- The graph the demo Pregel configurations run on (columns already
canonical). -/
def demoGraph : IbisGraph :=
  { _nodes := demoNodes.rename "id_" "id"
    _edges := (demoEdges.rename "src_" "src").rename "dst_" "dst"
    _directed := true
    _is_weighted := false }

/-- A head-of-bag aggregator. -/
def headAgg : List Val → Val := fun vs => vs.headD Val.null

/-- The demo state column's update expression, `x + 1`. -/
def demoUpd : Expr := Expr.addE (Expr.col "x") (Expr.lit (Val.int 1))

/-- A valid baseline configuration: one state column `x` (initially `0`,
updated to `x + 1`), one constant non-null message to the destination, the
head aggregator, `max_iter = 2`. -/
def demoPregel : Pregel :=
  { (((Pregel.init demoGraph).add_vertex_col "x"
        (Expr.lit (Val.int 0)) demoUpd).add_message_to_dst
        (Expr.lit (Val.int 7))).set_agg_expression_func headAgg with
    _max_iter := 2 }

/-- The baseline configuration with the message expression replaced by a NULL
literal: no message is ever emitted. -/
def demoNullMsg : Pregel :=
  { demoPregel with _messages := [⟨Pregel.pregel_dst "id_", Expr.lit Val.null⟩] }

/-- Integer view of a value. -/
def valInt : Val → Option Int
  | Val.int n => some n
  | _ => none

/-- Integer view of one column of a table, row by row. -/
def colIntVals (t : Table) (c : String) : List (Option Int) :=
  t.rows.map (fun r => (List.lookup c r).bind valInt)

/-! ## C9 — vertex-column declarations behave as a map -/

/-- Number of declarations stored under a key. -/
def keyCount (n : String) : List (String × PregelVertexColumn) → Nat
  | [] => 0
  | kv :: rest => (if kv.1 = n then 1 else 0) + keyCount n rest

theorem keyCount_zero_filter {n : String} :
    ∀ {l : List (String × PregelVertexColumn)},
      keyCount n l = 0 → l.filter (fun kv => kv.1 == n) = [] := by
  intro l
  induction l with
  | nil => intro _; rfl
  | cons kv rest ih =>
    intro h
    unfold keyCount at h
    by_cases hk : kv.1 = n
    · rw [if_pos hk] at h; omega
    · rw [if_neg hk] at h
      simp only [List.filter]
      rw [show (kv.1 == n) = false from beq_eq_false_iff_ne.mpr hk]
      exact ih (by omega)

theorem dictInsert_filter {n : String} (v : PregelVertexColumn) :
    ∀ {l : List (String × PregelVertexColumn)}, keyCount n l ≤ 1 →
      (dictInsert n v l).filter (fun kv => kv.1 == n) = [(n, v)] := by
  intro l
  induction l with
  | nil =>
    intro _
    simp [dictInsert, List.filter]
  | cons kv rest ih =>
    intro h
    unfold keyCount at h
    by_cases hk : kv.1 = n
    · rw [if_pos hk] at h
      unfold dictInsert
      rw [if_pos hk]
      simp only [List.filter, beq_self_eq_true]
      rw [keyCount_zero_filter (by omega)]
    · rw [if_neg hk] at h
      unfold dictInsert
      rw [if_neg hk]
      simp only [List.filter]
      rw [show (kv.1 == n) = false from beq_eq_false_iff_ne.mpr hk]
      exact ih (by omega)

theorem dictInsert_keyCount {n : String} (v : PregelVertexColumn) :
    ∀ {l : List (String × PregelVertexColumn)}, keyCount n l ≤ 1 →
      keyCount n (dictInsert n v l) ≤ 1 := by
  intro l
  induction l with
  | nil => intro _; simp [dictInsert, keyCount]
  | cons kv rest ih =>
    intro h
    unfold keyCount at h
    by_cases hk : kv.1 = n
    · rw [if_pos hk] at h
      unfold dictInsert
      rw [if_pos hk]
      unfold keyCount
      rw [if_pos rfl]
      omega
    · rw [if_neg hk] at h
      unfold dictInsert
      rw [if_neg hk]
      unfold keyCount
      rw [if_neg hk]
      have := ih (by omega : keyCount n rest ≤ 1)
      omega

theorem dictErase_absent {n : String} :
    ∀ {l : List (String × PregelVertexColumn)}, n ∉ l.map Prod.fst →
      dictErase n l = l := by
  intro l
  induction l with
  | nil => intro _; rfl
  | cons kv rest ih =>
    intro h
    simp only [List.map_cons, List.mem_cons] at h
    push_neg at h
    unfold dictErase
    rw [if_neg (fun hh => h.1 hh.symm), ih h.2]

/-- C9: the vertex-column declarations behave as a map keyed by the column
name: re-adding a declared name leaves exactly one declaration for that name,
holding the latest (initial, update) pair, and removing an undeclared name
leaves the builder unchanged. -/
theorem vertex_cols_are_a_map (p : Pregel) (name other : String)
    (i₁ u₁ i₂ u₂ : Expr)
    (hnd : keyCount name p._vertex_cols ≤ 1)
    (habs : other ∉ p._vertex_cols.map Prod.fst) :
    (((p.add_vertex_col name i₁ u₁).add_vertex_col name i₂ u₂)._vertex_cols.filter
        (fun kv => kv.1 == name)) = [(name, ⟨name, i₂, u₂⟩)]
    ∧ p.remove_vertex_col other = p := by
  constructor
  · exact dictInsert_filter _ (dictInsert_keyCount _ hnd)
  · show { p with _vertex_cols := dictErase other p._vertex_cols } = p
    rw [dictErase_absent habs]

/-- C9 witness: the map law at a concrete builder. -/
theorem vertex_cols_are_a_map_witness :
    ((((Pregel.init demoGraph).add_vertex_col "x" demoUpd demoUpd).add_vertex_col "x"
        (Expr.lit Val.null) (Expr.lit (Val.int 3)))._vertex_cols.filter
        (fun kv => kv.1 == "x")) = [("x", ⟨"x", Expr.lit Val.null, Expr.lit (Val.int 3)⟩)]
    ∧ (Pregel.init demoGraph).remove_vertex_col "y" = Pregel.init demoGraph :=
  vertex_cols_are_a_map (Pregel.init demoGraph) "x" "y" demoUpd demoUpd
    (Expr.lit Val.null) (Expr.lit (Val.int 3)) (by decide) (by decide)

/-! ## C5 — configuration errors -/

/-- C5: `run()` fails before any superstep — the `_validate` error propagates
unchanged — and validation succeeds exactly when an aggregator, at least one
message and at least one vertex column are present; `set_max_iter` fails
exactly on non-positive input and `set_checkpoint_interval` exactly on
negative input, each changing only its own field on success (on failure no
updated builder is produced, so the stored settings are unchanged). -/
theorem config_validation_errors (p : Pregel) (v w : Int) :
    (∀ e, p.validate = Except.error e → p.runWithStats = Except.error e)
    ∧ (p.validate = Except.ok () ↔
        (p._agg_expression_func.isSome = true ∧ p._messages ≠ [] ∧ p._vertex_cols ≠ []))
    ∧ ((∃ q, p.set_max_iter v = Except.ok q) ↔ 0 < v)
    ∧ (0 < v → p.set_max_iter v = Except.ok { p with _max_iter := v.toNat })
    ∧ ((∃ q, p.set_checkpoint_interval w = Except.ok q) ↔ 0 ≤ w)
    ∧ (0 ≤ w → p.set_checkpoint_interval w =
        Except.ok { p with _checkpoint_interval := w.toNat }) := by
  refine ⟨?_, ?_, ?_, ?_, ?_, ?_⟩
  · intro e he
    unfold Pregel.runWithStats
    rw [he]
    rfl
  · cases hagg : p._agg_expression_func <;>
      cases hm : p._messages <;>
      cases hv : p._vertex_cols <;>
      simp [Pregel.validate, hagg, hm, hv]
  · unfold Pregel.set_max_iter
    by_cases h : v ≤ 0
    · rw [if_pos h]
      constructor
      · rintro ⟨q, hq⟩; cases hq
      · intro hv; omega
    · rw [if_neg h]
      exact ⟨fun _ => by omega, fun _ => ⟨_, rfl⟩⟩
  · intro hv
    unfold Pregel.set_max_iter
    rw [if_neg (by omega)]
  · unfold Pregel.set_checkpoint_interval
    by_cases h : w < 0
    · rw [if_pos h]
      constructor
      · rintro ⟨q, hq⟩; cases hq
      · intro hw; omega
    · rw [if_neg h]
      exact ⟨fun _ => by omega, fun _ => ⟨_, rfl⟩⟩
  · intro hw
    unfold Pregel.set_checkpoint_interval
    rw [if_neg (by omega)]

/-! ## C8 — graph construction -/

theorem renameE_ok_val {t : Table} {new old : String} {t' : Table}
    (h : t.renameE new old = .ok t') : t' = t.rename new old := by
  unfold Table.renameE at h
  by_cases hm : old ∈ t.columns
  · rw [if_pos hm] at h; cases h; rfl
  · rw [if_neg hm] at h; cases h

theorem renameE_error_val {t : Table} {new old : String} {e : GraphError}
    (h : t.renameE new old = .error e) : e = .renameError := by
  unfold Table.renameE at h
  by_cases hm : old ∈ t.columns
  · rw [if_pos hm] at h; cases h
  · rw [if_neg hm] at h; cases h; rfl

theorem grOk_bind {α β : Type} (a : α) (f : α → Except GraphError β) :
    (Except.ok a >>= f) = f a := rfl

theorem grErr_bind {α β : Type} (e : GraphError) (f : α → Except GraphError β) :
    ((Except.error e : Except GraphError α) >>= f) = Except.error e := rfl

theorem grBind_ok_iff {α β : Type} {e : Except GraphError α} {f : α → Except GraphError β}
    {b : β} : (e >>= f) = .ok b ↔ ∃ a, e = .ok a ∧ f a = .ok b := by
  cases e with
  | ok a => constructor <;> intro h
            · exact ⟨a, rfl, h⟩
            · obtain ⟨a', ha, hf⟩ := h; cases ha; exact hf
  | error err =>
    constructor
    · intro h; cases h
    · rintro ⟨a, ha, -⟩; cases ha

/-- The chain of renames after a passed validation never produces a
`schemaError`. -/
theorem construct_pass_no_schema_error {nodes edges : Table} {directed : Bool}
    {id_col src_col dst_col : String} {weight_col : Option String} {m : String} :
    ((nodes.renameE "id_" id_col >>= fun nodes' =>
      edges.renameE "src_" src_col >>= fun e1 =>
      e1.renameE "dst_" dst_col >>= fun e2 =>
      match weight_col with
      | some w => e2.renameE "weight_" w >>= fun e3 =>
          pure { _nodes := nodes', _edges := e3, _directed := directed, _is_weighted := true }
      | none =>
          pure { _nodes := nodes', _edges := e2, _directed := directed,
                 _is_weighted := false }) ≠
     (Except.error (GraphError.schemaError m) : Except GraphError IbisGraph)) := by
  intro hcontra
  cases hn : nodes.renameE "id_" id_col with
  | error e =>
    simp only [hn, grErr_bind] at hcontra
    cases (renameE_error_val hn)
    cases hcontra
  | ok nodes' =>
    simp only [hn, grOk_bind] at hcontra
    cases he1 : edges.renameE "src_" src_col with
    | error e =>
      simp only [he1, grErr_bind] at hcontra
      cases (renameE_error_val he1)
      cases hcontra
    | ok e1 =>
      simp only [he1, grOk_bind] at hcontra
      cases he2 : e1.renameE "dst_" dst_col with
      | error e =>
        simp only [he2, grErr_bind] at hcontra
        cases (renameE_error_val he2)
        cases hcontra
      | ok e2 =>
        simp only [he2, grOk_bind] at hcontra
        cases weight_col with
        | none => cases hcontra
        | some w =>
          cases he3 : e2.renameE "weight_" w with
          | error e =>
            simp only [he3, grErr_bind] at hcontra
            cases (renameE_error_val he3)
            cases hcontra
          | ok e3 =>
            simp only [he3, grOk_bind] at hcontra
            cases hcontra

/-- C8: graph construction fails with a `SchemaError` exactly when the
nominated id column is absent from the vertex relation, the nominated src or
dst column is absent from the edge relation, or one of the three is not
integer-typed; on success the stored relations are the inputs with the
nominated columns renamed to `id_`, `src_`, `dst_` (and `weight_` when a
weight column is given), and `is_weighted` holds exactly when a weight column
was given. -/
theorem graph_construct_schema (nodes edges : Table) (directed : Bool)
    (id_col src_col dst_col : String) (weight_col : Option String) :
    ((∃ m, IbisGraph.construct nodes edges directed id_col src_col dst_col weight_col
        = .error (GraphError.schemaError m)) ↔
      (id_col ∉ nodes.columns ∨ nodes.hasIntCol id_col = false
       ∨ src_col ∉ edges.columns ∨ dst_col ∉ edges.columns
       ∨ edges.hasIntCol src_col = false ∨ edges.hasIntCol dst_col = false))
    ∧ (∀ g, IbisGraph.construct nodes edges directed id_col src_col dst_col weight_col
        = .ok g →
        g._nodes = nodes.rename "id_" id_col
        ∧ g._directed = directed
        ∧ g._is_weighted = weight_col.isSome
        ∧ g._edges = (match weight_col with
            | some w => ((edges.rename "src_" src_col).rename "dst_" dst_col).rename "weight_" w
            | none => (edges.rename "src_" src_col).rename "dst_" dst_col)) := by
  unfold IbisGraph.construct
  by_cases h1 : id_col ∈ nodes.columns
  case neg =>
    rw [if_pos h1]
    constructor
    · exact ⟨fun _ => Or.inl h1, fun _ => ⟨_, rfl⟩⟩
    · intro g hg; cases hg
  case pos =>
  rw [if_neg (fun hc => hc h1)]
  by_cases h2 : nodes.hasIntCol id_col
  case neg =>
    rw [if_pos (by simpa using h2)]
    constructor
    · exact ⟨fun _ => Or.inr (Or.inl (by simpa using h2)), fun _ => ⟨_, rfl⟩⟩
    · intro g hg; cases hg
  case pos =>
  rw [if_neg (by simpa using h2)]
  by_cases h3 : src_col ∈ edges.columns
  case neg =>
    rw [if_pos h3]
    constructor
    · exact ⟨fun _ => Or.inr (Or.inr (Or.inl h3)), fun _ => ⟨_, rfl⟩⟩
    · intro g hg; cases hg
  case pos =>
  rw [if_neg (fun hc => hc h3)]
  by_cases h4 : dst_col ∈ edges.columns
  case neg =>
    rw [if_pos h4]
    constructor
    · exact ⟨fun _ => Or.inr (Or.inr (Or.inr (Or.inl h4))), fun _ => ⟨_, rfl⟩⟩
    · intro g hg; cases hg
  case pos =>
  rw [if_neg (fun hc => hc h4)]
  by_cases h5 : edges.hasIntCol src_col
  case neg =>
    rw [if_pos (by simpa using h5)]
    constructor
    · exact ⟨fun _ => Or.inr (Or.inr (Or.inr (Or.inr (Or.inl (by simpa using h5))))),
             fun _ => ⟨_, rfl⟩⟩
    · intro g hg; cases hg
  case pos =>
  rw [if_neg (by simpa using h5)]
  by_cases h6 : edges.hasIntCol dst_col
  case neg =>
    rw [if_pos (by simpa using h6)]
    constructor
    · exact ⟨fun _ => Or.inr (Or.inr (Or.inr (Or.inr (Or.inr (by simpa using h6))))),
             fun _ => ⟨_, rfl⟩⟩
    · intro g hg; cases hg
  case pos =>
  rw [if_neg (by simpa using h6)]
  constructor
  · constructor
    · rintro ⟨m, hm⟩
      exact absurd hm (construct_pass_no_schema_error)
    · intro h
      rcases h with h | h | h | h | h | h
      · exact absurd h1 h
      · rw [h2] at h; cases h
      · exact absurd h3 h
      · exact absurd h4 h
      · rw [h5] at h; cases h
      · rw [h6] at h; cases h
  · intro g hg
    rw [grBind_ok_iff] at hg
    obtain ⟨nodes', hn, hg⟩ := hg
    rw [grBind_ok_iff] at hg
    obtain ⟨e1, he1, hg⟩ := hg
    rw [grBind_ok_iff] at hg
    obtain ⟨e2, he2, hg⟩ := hg
    cases weight_col with
    | none =>
      cases hg
      refine ⟨renameE_ok_val hn, rfl, rfl, ?_⟩
      rw [renameE_ok_val he2, renameE_ok_val he1]
    | some w =>
      rw [grBind_ok_iff] at hg
      obtain ⟨e3, he3, hg⟩ := hg
      cases hg
      refine ⟨renameE_ok_val hn, rfl, rfl, ?_⟩
      rw [renameE_ok_val he3, renameE_ok_val he2, renameE_ok_val he1]

/-! ## C4 — max_iter bounds the number of supersteps -/

theorem pregelLoop_iters_le (p : Pregel) (edges : Table) :
    ∀ (fuel it : Nat) (state : Table) (stats : RunStats) (out : Table × RunStats),
      pregelLoop p edges fuel it state stats = .ok out →
      out.2.iters ≤ stats.iters + fuel := by
  intro fuel
  induction fuel with
  | zero =>
    intro it state stats out h
    unfold pregelLoop at h
    cases h
    simp
  | succ n ih =>
    intro it state stats out h
    unfold pregelLoop at h
    rw [exBind_ok_iff] at h
    obtain ⟨so, hso, h⟩ := h
    by_cases hstop : so.stopped
    · rw [if_pos hstop] at h
      cases h
      simp only []
      omega
    · rw [if_neg hstop] at h
      have := ih (it + 1) so.state _ out h
      simp only [] at this
      omega

/-- Inversion of a successful `runWithStats`: the initial select succeeded and
the loop ran from `State(0)` with the full `max_iter` fuel. -/
theorem runWithStats_inv {p : Pregel} {t : Table} {stats : RunStats}
    (h : p.runWithStats = .ok (t, stats)) :
    ∃ s0 fs, p._graph._nodes.select p.initColumns = .ok s0
      ∧ pregelLoop p ((p._graph._edges.packStruct "edge_").cache) p._max_iter 0 s0
          ⟨0, 0, 0⟩ = .ok fs
      ∧ stats = fs.2
      ∧ t = (if p._has_active_flag then fs.1.drop "_active_flag" else fs.1) := by
  unfold Pregel.runWithStats at h
  cases hval : p.validate with
  | error e => rw [hval] at h; cases h
  | ok u =>
    cases u
    rw [hval, exOk_bind] at h
    rw [exBind_ok_iff] at h
    obtain ⟨s0, hs0, h⟩ := h
    rw [exBind_ok_iff] at h
    obtain ⟨fs, hfs, h⟩ := h
    refine ⟨s0, fs, hs0, hfs, ?_⟩
    by_cases hflag : p._has_active_flag
    · rw [if_pos hflag] at h ⊢
      cases h
      exact ⟨rfl, rfl⟩
    · rw [if_neg hflag] at h
      rw [if_neg hflag]
      cases h
      exact ⟨rfl, rfl⟩

/-- C4: if `max_iter` is set to `k`, a returning run executes at most `k`
supersteps (and the loop always terminates, being fuelled by `max_iter`). -/
theorem max_iter_bounds (p p' : Pregel) (k : Int) (t : Table) (stats : RunStats)
    (hset : p.set_max_iter k = .ok p')
    (hrun : p'.runWithStats = .ok (t, stats)) :
    stats.iters ≤ k.toNat := by
  unfold Pregel.set_max_iter at hset
  by_cases hk : k ≤ 0
  · rw [if_pos hk] at hset; cases hset
  · rw [if_neg hk] at hset
    cases hset
    obtain ⟨s0, fs, -, hloop, hstats, -⟩ := runWithStats_inv hrun
    subst hstats
    have := pregelLoop_iters_le _ _ _ _ _ _ _ hloop
    simp only [] at this
    omega

/-- The result pair of a run, with a default on failure (used only to state
concrete witnesses). -/
def runResultOf (p : Pregel) : Table × RunStats :=
  match p.runWithStats with
  | .ok x => x
  | .error _ => (⟨[], []⟩, ⟨0, 0, 0⟩)

/-- The builder produced by `set_max_iter 2` on the demo configuration. -/
def demoMax2 : Pregel :=
  match demoPregel.set_max_iter 2 with
  | .ok q => q
  | .error _ => demoPregel

/-- C4 witness: the demo run performs at most 2 supersteps. -/
theorem max_iter_bounds_witness : (runResultOf demoMax2).2.iters ≤ (2 : Int).toNat :=
  max_iter_bounds demoPregel demoMax2 2 (runResultOf demoMax2).1 (runResultOf demoMax2).2
    (by rfl) (by rfl)

/-! ## C7 — which backend probes run -/

theorem stepRest_flags {p : Pregel} {m state : Table} {it : Nat} {ep : Bool}
    {out : StepOut} (h : p.stepRest m state it ep = .ok out) :
    out.earlyProbed = ep ∧ out.inactiveProbed = p._stop_if_all_non_active := by
  unfold Pregel.stepRest at h
  cases hagg : p._agg_expression_func with
  | none => simp only [hagg, exErr_bind] at h; cases h
  | some f =>
    simp only [hagg, exOk_bind] at h
    cases hsel : (state.leftJoin (groupByAgg m f) "id_").select p.newColumns with
    | error e => rw [hsel] at h; cases h
    | ok tmp =>
      rw [hsel, exOk_bind] at h
      by_cases hs : p._stop_if_all_non_active
      · rw [if_pos hs] at h
        cases hsel2 : (if 0 < p._checkpoint_interval ∧ it ≠ 0 ∧
              it % p._checkpoint_interval = 0 then tmp.cache else tmp).select
            [("_active_flag", Expr.col "_active_flag")] with
        | error e => rw [hsel2] at h; cases h
        | ok aa =>
          rw [hsel2, exOk_bind] at h
          cases h
          exact ⟨rfl, hs.symm ▸ rfl⟩
      · rw [if_neg hs] at h
        cases h
        refine ⟨rfl, ?_⟩
        simp only []
        exact (Bool.eq_false_iff.mpr hs).symm

theorem superstep_flags {p : Pregel} {edges state : Table} {it : Nat} {out : StepOut}
    (h : p.superstep edges state it = .ok out) :
    (p._stop_if_all_non_active = false → out.inactiveProbed = false)
    ∧ (p._do_early_stopping = false → out.earlyProbed = false) := by
  unfold Pregel.superstep at h
  cases ht : p.stepTriplets edges state with
  | error e => rw [ht] at h; cases h
  | ok ts =>
    rw [ht, exOk_bind] at h
    cases hm : p.stepMessages ts with
    | error e => rw [hm] at h; cases h
    | ok mt =>
      rw [hm, exOk_bind] at h
      by_cases he : p._do_early_stopping
      · rw [if_pos he] at h
        by_cases hz : mt.rows.length = 0
        · rw [if_pos hz] at h
          cases h
          exact ⟨fun _ => rfl, fun hc => by rw [he] at hc; cases hc⟩
        · rw [if_neg hz] at h
          obtain ⟨-, hflag⟩ := stepRest_flags h
          exact ⟨fun hs => hflag.trans hs, fun hc => by rw [he] at hc; cases hc⟩
      · rw [if_neg he] at h
        obtain ⟨hep, hflag⟩ := stepRest_flags h
        exact ⟨fun hs => hflag.trans hs, fun _ => hep⟩

theorem pregelLoop_no_inactive_probes {p : Pregel} {edges : Table}
    (hs : p._stop_if_all_non_active = false) :
    ∀ (fuel it : Nat) (state : Table) (stats : RunStats) (out : Table × RunStats),
      pregelLoop p edges fuel it state stats = .ok out →
      out.2.inactiveProbes = stats.inactiveProbes := by
  intro fuel
  induction fuel with
  | zero =>
    intro it state stats out h
    unfold pregelLoop at h
    cases h
    rfl
  | succ n ih =>
    intro it state stats out h
    unfold pregelLoop at h
    rw [exBind_ok_iff] at h
    obtain ⟨so, hso, h⟩ := h
    have hprobe := (superstep_flags hso).1 hs
    by_cases hstop : so.stopped
    · rw [if_pos hstop] at h
      cases h
      simp [hprobe]
    · rw [if_neg hstop] at h
      have := ih (it + 1) so.state _ out h
      simp only [] at this
      rw [this]
      simp [hprobe]

theorem pregelLoop_no_early_probes {p : Pregel} {edges : Table}
    (he : p._do_early_stopping = false) :
    ∀ (fuel it : Nat) (state : Table) (stats : RunStats) (out : Table × RunStats),
      pregelLoop p edges fuel it state stats = .ok out →
      out.2.earlyProbes = stats.earlyProbes := by
  intro fuel
  induction fuel with
  | zero =>
    intro it state stats out h
    unfold pregelLoop at h
    cases h
    rfl
  | succ n ih =>
    intro it state stats out h
    unfold pregelLoop at h
    rw [exBind_ok_iff] at h
    obtain ⟨so, hso, h⟩ := h
    have hprobe := (superstep_flags hso).2 he
    by_cases hstop : so.stopped
    · rw [if_pos hstop] at h
      cases h
      simp [hprobe]
    · rw [if_neg hstop] at h
      have := ih (it + 1) so.state _ out h
      simp only [] at this
      rw [this]
      simp [hprobe]

/-- C7 (amended): only the all-inactive probe is opt-in.  A fresh instance has
`stop_if_all_unactive` disabled — so a run without `set_stop_if_all_unactive`
performs no all-inactive distinct probe — but early stopping is enabled by
default, and only a run with early stopping disabled performs no row-count
probe. -/
theorem probes_flag_controlled (g : IbisGraph) (p : Pregel) (t : Table)
    (stats : RunStats) :
    ((Pregel.init g)._do_early_stopping = true
      ∧ (Pregel.init g)._stop_if_all_non_active = false)
    ∧ (p._stop_if_all_non_active = false → p.runWithStats = .ok (t, stats) →
        stats.inactiveProbes = 0)
    ∧ (p._do_early_stopping = false → p.runWithStats = .ok (t, stats) →
        stats.earlyProbes = 0) := by
  refine ⟨⟨rfl, rfl⟩, ?_, ?_⟩
  · intro hs hrun
    obtain ⟨s0, fs, -, hloop, hstats, -⟩ := runWithStats_inv hrun
    subst hstats
    exact pregelLoop_no_inactive_probes hs _ _ _ _ _ hloop
  · intro he hrun
    obtain ⟨s0, fs, -, hloop, hstats, -⟩ := runWithStats_inv hrun
    subst hstats
    exact pregelLoop_no_early_probes he _ _ _ _ _ hloop

/-- A fresh instance configured only through `add_vertex_col`,
`add_message_to_dst` and `set_agg_expression_func` — neither
`set_early_stopping` nor `set_stop_if_all_unactive` is called. -/
def demoFresh : Pregel :=
  (((Pregel.init demoGraph).add_vertex_col "x"
      (Expr.lit (Val.int 0)) demoUpd).add_message_to_dst
      (Expr.lit (Val.int 7))).set_agg_expression_func headAgg

/-- C7 counterexample: the fresh demo instance performs ten early-stopping
row-count probes (one per superstep), not zero — early stopping is enabled by
default, so the early-stopping probe is not opt-in. -/
theorem probes_counterexample :
    (demoFresh.runWithStats).map (fun x => x.2.earlyProbes) = Except.ok 10
    ∧ (10 : Nat) ≠ 0 := ⟨by rfl, by decide⟩

/-! ## C3 — the checkpoint interval never changes the result -/

theorem exBind_congr {α β : Type} {e : Except PError α} {f g : α → Except PError β}
    (h : ∀ a, f a = g a) : (e >>= f) = (e >>= g) := by
  cases e with
  | ok a => exact h a
  | error err => rfl

theorem stepRest_ci (g : IbisGraph) (f1 : Bool) (f2 : Expr)
    (vc : List (String × PregelVertexColumn)) (ms : List PregelMessage)
    (ag : Option (List Val → Val)) (es : Bool) (mi ci ci' : Nat)
    (fu : Option Expr) (fi st : Bool) (m state : Table) (it : Nat) (ep : Bool) :
    Pregel.stepRest ⟨g, f1, f2, vc, ms, ag, es, mi, ci, fu, fi, st⟩ m state it ep
      = Pregel.stepRest ⟨g, f1, f2, vc, ms, ag, es, mi, ci', fu, fi, st⟩ m state it ep := by
  unfold Pregel.stepRest
  simp only [Table.cache, ite_self, Pregel.newColumns]

theorem superstep_ci (g : IbisGraph) (f1 : Bool) (f2 : Expr)
    (vc : List (String × PregelVertexColumn)) (ms : List PregelMessage)
    (ag : Option (List Val → Val)) (es : Bool) (mi ci ci' : Nat)
    (fu : Option Expr) (fi st : Bool) (edges state : Table) (it : Nat) :
    Pregel.superstep ⟨g, f1, f2, vc, ms, ag, es, mi, ci, fu, fi, st⟩ edges state it
      = Pregel.superstep ⟨g, f1, f2, vc, ms, ag, es, mi, ci', fu, fi, st⟩ edges state it := by
  unfold Pregel.superstep
  apply exBind_congr
  intro ts
  apply exBind_congr
  intro mt
  cases es with
  | false =>
    simp only [Bool.false_eq_true, if_false]
    exact stepRest_ci g f1 f2 vc ms ag false mi ci ci' fu fi st mt state it false
  | true =>
    simp only [if_true]
    by_cases hz : mt.rows.length = 0
    · rw [if_pos hz, if_pos hz]
    · rw [if_neg hz, if_neg hz]
      exact stepRest_ci g f1 f2 vc ms ag true mi ci ci' fu fi st mt state it true

theorem pregelLoop_ci (g : IbisGraph) (f1 : Bool) (f2 : Expr)
    (vc : List (String × PregelVertexColumn)) (ms : List PregelMessage)
    (ag : Option (List Val → Val)) (es : Bool) (mi ci ci' : Nat)
    (fu : Option Expr) (fi st : Bool) (edges : Table) :
    ∀ (fuel it : Nat) (state : Table) (stats : RunStats),
      pregelLoop ⟨g, f1, f2, vc, ms, ag, es, mi, ci, fu, fi, st⟩ edges fuel it state stats
        = pregelLoop ⟨g, f1, f2, vc, ms, ag, es, mi, ci', fu, fi, st⟩ edges fuel it state stats := by
  intro fuel
  induction fuel with
  | zero => intro it state stats; rfl
  | succ n ih =>
    intro it state stats
    simp only [pregelLoop]
    rw [superstep_ci g f1 f2 vc ms ag es mi ci ci' fu fi st edges state (it + 1)]
    apply exBind_congr
    intro so
    by_cases hstop : so.stopped
    · rw [if_pos hstop, if_pos hstop]
    · rw [if_neg hstop, if_neg hstop]
      exact ih (it + 1) so.state _

/-- C3: two runs that differ only in the checkpoint interval — any two values,
0 included — produce identical results (tables, probe counts, or error); the
checkpoint only materializes-and-caches `State(t+1)` at supersteps whose
counter the interval divides, which never alters the projected contents. -/
theorem checkpoint_interval_transparent (p : Pregel) (a b : Nat) :
    Pregel.runWithStats { p with _checkpoint_interval := a }
      = Pregel.runWithStats { p with _checkpoint_interval := b }
    ∧ Pregel.run { p with _checkpoint_interval := a }
      = Pregel.run { p with _checkpoint_interval := b } := by
  cases p with
  | mk g f1 f2 vc ms ag es mi ci fu fi st =>
    have hrw : Pregel.runWithStats ⟨g, f1, f2, vc, ms, ag, es, mi, a, fu, fi, st⟩
        = Pregel.runWithStats ⟨g, f1, f2, vc, ms, ag, es, mi, b, fu, fi, st⟩ := by
      simp only [Pregel.runWithStats]
      apply exBind_congr
      intro u
      apply exBind_congr
      intro s0
      rw [pregelLoop_ci g f1 f2 vc ms ag es mi a b fu fi st]
    exact ⟨hrw, by unfold Pregel.run; rw [hrw]⟩

/-! ## C2 — the schema of the returned relation -/

/-- The column names every rebuilt state carries. -/
def Pregel.stateNames (p : Pregel) : List String :=
  p._graph._nodes.columns ++ p._vertex_cols.map (fun kv => kv.2.col_name)
  ++ (if p._has_active_flag then ["_active_flag"] else [])

theorem newColumns_names (p : Pregel) :
    p.newColumns.map Prod.fst = p.stateNames := by
  unfold Pregel.newColumns Pregel.stateNames
  by_cases hflag : p._has_active_flag
  · simp [hflag, Function.comp_def]
  · simp [hflag, Function.comp_def]

theorem initColumns_names (p : Pregel) :
    p.initColumns.map Prod.fst = p.stateNames := by
  unfold Pregel.initColumns Pregel.stateNames
  by_cases hflag : p._has_active_flag
  · simp [hflag, Function.comp_def]
  · simp [hflag, Function.comp_def]

theorem stepRest_state_columns {p : Pregel} {m state : Table} {it : Nat} {ep : Bool}
    {out : StepOut} (h : p.stepRest m state it ep = .ok out) :
    out.state.columns = p.stateNames := by
  unfold Pregel.stepRest at h
  cases hagg : p._agg_expression_func with
  | none => simp only [hagg, exErr_bind] at h; cases h
  | some f =>
    simp only [hagg, exOk_bind] at h
    cases hsel : (state.leftJoin (groupByAgg m f) "id_").select p.newColumns with
    | error e => rw [hsel] at h; cases h
    | ok tmp =>
      rw [hsel, exOk_bind] at h
      have htmp : tmp.columns = p.stateNames :=
        (select_ok_inv hsel).1.trans (newColumns_names p)
      simp only [Table.cache, ite_self] at h
      by_cases hs : p._stop_if_all_non_active
      · rw [if_pos hs] at h
        cases hsel2 : tmp.select [("_active_flag", Expr.col "_active_flag")] with
        | error e => rw [hsel2] at h; cases h
        | ok aa =>
          rw [hsel2, exOk_bind] at h
          cases h
          exact htmp
      · rw [if_neg hs] at h
        cases h
        exact htmp

theorem superstep_state_columns {p : Pregel} {edges state : Table} {it : Nat}
    {out : StepOut} (h : p.superstep edges state it = .ok out) :
    out.state.columns = state.columns ∨ out.state.columns = p.stateNames := by
  unfold Pregel.superstep at h
  cases ht : p.stepTriplets edges state with
  | error e => rw [ht] at h; cases h
  | ok ts =>
    rw [ht, exOk_bind] at h
    cases hm : p.stepMessages ts with
    | error e => rw [hm] at h; cases h
    | ok mt =>
      rw [hm, exOk_bind] at h
      by_cases he : p._do_early_stopping
      · rw [if_pos he] at h
        by_cases hz : mt.rows.length = 0
        · rw [if_pos hz] at h
          cases h
          exact Or.inl rfl
        · rw [if_neg hz] at h
          exact Or.inr (stepRest_state_columns h)
      · rw [if_neg he] at h
        exact Or.inr (stepRest_state_columns h)

theorem pregelLoop_columns {p : Pregel} {edges : Table} :
    ∀ (fuel it : Nat) (state : Table) (stats : RunStats) (out : Table × RunStats),
      state.columns = p.stateNames →
      pregelLoop p edges fuel it state stats = .ok out →
      out.1.columns = p.stateNames := by
  intro fuel
  induction fuel with
  | zero =>
    intro it state stats out hc h
    unfold pregelLoop at h
    cases h
    exact hc
  | succ n ih =>
    intro it state stats out hc h
    unfold pregelLoop at h
    rw [exBind_ok_iff] at h
    obtain ⟨so, hso, h⟩ := h
    have hcols : so.state.columns = p.stateNames := by
      rcases superstep_state_columns hso with hl | hr
      · exact hl.trans hc
      · exact hr
    by_cases hstop : so.stopped
    · rw [if_pos hstop] at h
      cases h
      exact hcols
    · rw [if_neg hstop] at h
      exact ih (it + 1) so.state _ out hcols h

theorem filter_ne_of_not_mem {x : String} :
    ∀ {l : List String}, x ∉ l → l.filter (fun n => n ≠ x) = l := by
  intro l
  induction l with
  | nil => intro _; rfl
  | cons a rest ih =>
    intro h
    simp only [List.mem_cons] at h
    push_neg at h
    have hax : a ≠ x := fun hh => h.1 hh.symm
    simp only [List.filter]
    rw [show (decide (a ≠ x)) = true from decide_eq_true hax]
    rw [ih h.2]

/-- C2: a normally returning run — whatever ended the loop — yields a relation
whose schema holds every original vertex column and every declared vertex
column and contains neither `_active_flag` nor `_pregel_msg` (the reserved
names being, as the spec demands, unused by the input columns). -/
theorem result_schema (p : Pregel) (t : Table) (stats : RunStats)
    (hfa : "_active_flag" ∉ p._graph._nodes.columns)
    (hfv : "_active_flag" ∉ p._vertex_cols.map (fun kv => kv.2.col_name))
    (hma : "_pregel_msg" ∉ p._graph._nodes.columns)
    (hmv : "_pregel_msg" ∉ p._vertex_cols.map (fun kv => kv.2.col_name))
    (hrun : p.runWithStats = .ok (t, stats)) :
    (∀ c ∈ p._graph._nodes.columns, c ∈ t.columns)
    ∧ (∀ kv ∈ p._vertex_cols, kv.2.col_name ∈ t.columns)
    ∧ "_active_flag" ∉ t.columns
    ∧ "_pregel_msg" ∉ t.columns := by
  obtain ⟨s0, fs, hs0, hloop, -, ht⟩ := runWithStats_inv hrun
  have hs0c : s0.columns = p.stateNames :=
    (select_ok_inv hs0).1.trans (initColumns_names p)
  have hfsc : fs.1.columns = p.stateNames :=
    pregelLoop_columns _ _ _ _ _ hs0c hloop
  have hbase : t.columns = p._graph._nodes.columns
      ++ p._vertex_cols.map (fun kv => kv.2.col_name) := by
    by_cases hflag : p._has_active_flag
    · rw [if_pos hflag] at ht
      subst ht
      rw [drop_columns, hfsc]
      unfold Pregel.stateNames
      rw [if_pos hflag]
      rw [List.filter_append, List.filter_append]
      rw [filter_ne_of_not_mem hfa, filter_ne_of_not_mem hfv]
      simp
    · rw [if_neg hflag] at ht
      subst ht
      rw [hfsc]
      unfold Pregel.stateNames
      rw [if_neg hflag]
      simp
  rw [hbase]
  refine ⟨?_, ?_, ?_, ?_⟩
  · intro c hc
    exact List.mem_append_left _ hc
  · intro kv hkv
    exact List.mem_append_right _ (List.mem_map_of_mem _ hkv)
  · intro hc
    rcases List.mem_append.mp hc with hc | hc
    · exact hfa hc
    · exact hfv hc
  · intro hc
    rcases List.mem_append.mp hc with hc | hc
    · exact hma hc
    · exact hmv hc

/-- C2 witness: the schema law at the demo configuration. -/
theorem result_schema_witness :
    (∀ c ∈ demoPregel._graph._nodes.columns, c ∈ (runResultOf demoPregel).1.columns)
    ∧ (∀ kv ∈ demoPregel._vertex_cols, kv.2.col_name ∈ (runResultOf demoPregel).1.columns)
    ∧ "_active_flag" ∉ (runResultOf demoPregel).1.columns
    ∧ "_pregel_msg" ∉ (runResultOf demoPregel).1.columns :=
  result_schema demoPregel (runResultOf demoPregel).1 (runResultOf demoPregel).2
    (by decide) (by decide) (by decide) (by decide) (by rfl)

/-! ## C6 — the active-flag update expression -/

theorem selectRow_append (cs ds : List (String × Expr)) (r : Row) :
    selectRow (cs ++ ds) r =
      (selectRow cs r >>= fun a => (selectRow ds r).map (fun b => a ++ b)) :=
  exceptMap_append _ cs ds

theorem selectRow_last {cs : List (String × Expr)} {n : String} {e : Expr} {r : Row}
    {r' : Row} (h : selectRow (cs ++ [(n, e)]) r = .ok r')
    (hn : n ∉ cs.map Prod.fst) :
    ∃ v, Expr.eval e r = .ok v ∧ List.lookup n r' = some v := by
  rw [selectRow_append, exBind_ok_iff] at h
  obtain ⟨a, ha, h⟩ := h
  cases hone : selectRow [(n, e)] r with
  | error err => rw [hone, exMap_err] at h; cases h
  | ok b =>
    rw [hone, exMap_ok] at h
    cases h
    cases hev : Expr.eval e r with
    | error err =>
      exfalso
      simp only [selectRow, exceptMap_cons, exceptMap_nil, hev, exMap_err, exErr_bind] at hone
      cases hone
    | ok v =>
      refine ⟨v, rfl, ?_⟩
      simp only [selectRow, exceptMap_cons, exceptMap_nil, hev, exMap_ok, exOk_bind] at hone
      cases hone
      rw [lookup_append_right _ ((selectRow_names ha).symm ▸ hn)]
      simp [List.lookup]

/-- C6: with the active flag enabled and no custom update expression, the
rebuilt state's `_active_flag` entry is exactly "the joined row's
`_pregel_msg` is non-null"; with a custom expression set, that expression's
value is used instead. -/
theorem active_flag_update (p : Pregel) (r r' : Row)
    (hflag : p._has_active_flag = true)
    (hfresh : "_active_flag" ∉ p._graph._nodes.columns
        ++ p._vertex_cols.map (fun kv => kv.2.col_name)) :
    (p._active_flag_upd_expr = none →
      selectRow p.newColumns r = .ok r' →
      List.lookup "_active_flag" r' =
        (List.lookup "_pregel_msg" r).map (fun v => Val.bool (!v.isNull)))
    ∧ (∀ e, p._active_flag_upd_expr = some e →
      selectRow p.newColumns r = .ok r' →
      ∃ v, Expr.eval e r = .ok v ∧ List.lookup "_active_flag" r' = some v) := by
  have hbase : ∀ (fe : Expr),
      (p._graph._nodes.columns.map (fun c => (c, Expr.col c))
        ++ p._vertex_cols.map (fun kv => (kv.2.col_name, kv.2.update_expr))).map Prod.fst
      = p._graph._nodes.columns ++ p._vertex_cols.map (fun kv => kv.2.col_name) := by
    intro fe
    simp [Function.comp_def]
  constructor
  · intro hupd hsel
    unfold Pregel.newColumns at hsel
    rw [hupd, hflag] at hsel
    simp only [if_true] at hsel
    obtain ⟨v, hev, hlk⟩ := selectRow_last hsel (by
      rw [hbase (Expr.lit Val.null)]
      exact hfresh)
    cases hml : List.lookup "_pregel_msg" r with
    | none =>
      exfalso
      simp only [Expr.eval, hml] at hev
      cases hev
    | some m =>
      simp only [Expr.eval, hml, exOk_bind] at hev
      cases hev
      simp [hlk, hml]
  · intro e hupd hsel
    unfold Pregel.newColumns at hsel
    rw [hupd, hflag] at hsel
    simp only [if_true] at hsel
    exact selectRow_last hsel (by
      rw [hbase (Expr.lit Val.null)]
      exact hfresh)

/-- The demo configuration with the active flag enabled (default initial and
update expressions). -/
def demoFlag : Pregel := demoPregel.set_has_active_flag true

/-- A joined row as step H produces it for vertex 1 when no message arrived. -/
def demoJoinedRow : Row := [("id_", Val.int 1), ("x", Val.int 0), ("_pregel_msg", Val.null)]

/-- The rebuilt row step I produces from `demoJoinedRow`. -/
def demoRebuiltRow : Row :=
  match selectRow demoFlag.newColumns demoJoinedRow with
  | .ok a => a
  | .error _ => []

/-- C6 witness: the default active-flag update at a concrete joined row. -/
theorem active_flag_update_witness :
    ((demoFlag._active_flag_upd_expr = none →
      selectRow demoFlag.newColumns demoJoinedRow = .ok demoRebuiltRow →
      List.lookup "_active_flag" demoRebuiltRow =
        (List.lookup "_pregel_msg" demoJoinedRow).map (fun v => Val.bool (!v.isNull)))
    ∧ (∀ e, demoFlag._active_flag_upd_expr = some e →
      selectRow demoFlag.newColumns demoJoinedRow = .ok demoRebuiltRow →
      ∃ v, Expr.eval e demoJoinedRow = .ok v
        ∧ List.lookup "_active_flag" demoRebuiltRow = some v)) :=
  active_flag_update demoFlag demoJoinedRow demoRebuiltRow rfl (by decide)

/-! ## C1 — early stopping with all-null messages -/

theorem stepMessages_all_null {p : Pregel} {ts : List Row}
    (h : ∀ r ∈ ts, ∀ m ∈ p._messages,
      (∃ v, Expr.eval m.target_column r = .ok v) ∧ Expr.eval m.msg_expr r = .ok Val.null) :
    p.stepMessages ts =
      .ok ⟨[("id_", ColType.unknownT), ("_pregel_msg", ColType.unknownT)], []⟩ := by
  unfold Pregel.stepMessages
  have key : ∀ (L : List (Row × PregelMessage)),
      (∀ rm ∈ L, (∃ v, Expr.eval rm.2.target_column rm.1 = .ok v)
        ∧ Expr.eval rm.2.msg_expr rm.1 = .ok Val.null) →
      ∃ pairs, exceptMap (fun te => do
          let tid ← Expr.eval (te.2 : PregelMessage).target_column te.1
          let mv ← Expr.eval (te.2 : PregelMessage).msg_expr te.1
          pure (tid, mv)) L = .ok pairs
        ∧ pairs.filter (fun iv => !iv.2.isNull) = [] := by
    intro L
    induction L with
    | nil => exact fun _ => ⟨[], rfl, rfl⟩
    | cons rm L ih =>
      intro hL
      obtain ⟨⟨v, hv⟩, hm⟩ := hL rm (List.mem_cons_self rm L)
      obtain ⟨pairs, hp, hf⟩ := ih (fun x hx => hL x (List.mem_cons_of_mem rm hx))
      refine ⟨(v, Val.null) :: pairs, ?_, ?_⟩
      · simp only [exceptMap_cons, hv, hm, hp, exOk_bind]
        rfl
      · simp only [List.filter, Val.isNull, Bool.not_true]
        exact hf
  obtain ⟨pairs, hp, hf⟩ := key (ts.flatMap (fun r => p._messages.map (fun m => (r, m))))
    (by
      intro rm hrm
      rw [List.mem_flatMap] at hrm
      obtain ⟨r, hr, hrm⟩ := hrm
      rw [List.mem_map] at hrm
      obtain ⟨m, hmem, hrm⟩ := hrm
      cases hrm
      exact h r hr m hmem)
  rw [hp, exOk_bind, hf]
  rfl

/-- C1 (amended): with early stopping enabled and every message expression
NULL on every triplet of the first superstep, `run()` returns after exactly
one superstep (one early-stopping probe, no all-inactive probe) and the
result is `State(0)` unchanged — the update expressions are not applied,
because the loop breaks before step G — with `_active_flag` dropped when the
flag is enabled. -/
theorem early_stop_returns_state0 (p : Pregel) (s0 : Table) (ts : List Row)
    (hval : p.validate = .ok ())
    (hes : p._do_early_stopping = true)
    (hmax : 0 < p._max_iter)
    (hs0 : p._graph._nodes.select p.initColumns = .ok s0)
    (hts : p.stepTriplets ((p._graph._edges.packStruct "edge_").cache) s0 = .ok ts)
    (hnull : ∀ r ∈ ts, ∀ m ∈ p._messages,
      (∃ v, Expr.eval m.target_column r = .ok v) ∧ Expr.eval m.msg_expr r = .ok Val.null) :
    p.runWithStats = .ok
      ((if p._has_active_flag then s0.drop "_active_flag" else s0),
       { iters := 1, earlyProbes := 1, inactiveProbes := 0 }) := by
  obtain ⟨n, hn⟩ : ∃ n, p._max_iter = n + 1 :=
    ⟨p._max_iter - 1, by omega⟩
  simp only [Pregel.runWithStats]
  rw [hval, exOk_bind, hs0, exOk_bind, hn]
  simp only [pregelLoop]
  unfold Pregel.superstep
  rw [hts, exOk_bind, stepMessages_all_null hnull, exOk_bind, hes]
  simp only [if_true, List.length_nil, if_pos rfl, exOk_bind]
  by_cases hflag : p._has_active_flag <;> simp [hflag]

/-- C1 counterexample: in the demo configuration with a NULL message, the run
returns `State(0)` unchanged (`x = 0` everywhere), while the update expression
applied under a null aggregated message — what the claim says is returned —
evaluates to `1`. -/
theorem early_stop_counterexample :
    (demoNullMsg.run).map (fun t => colIntVals t "x") = Except.ok [some 0, some 0]
    ∧ (Expr.eval demoUpd demoJoinedRow).map valInt = Except.ok (some 1)
    ∧ ([some (0 : Int), some 0] ≠ [some 1, some 1]) :=
  ⟨by rfl, by rfl, by decide⟩

/-- `State(0)` of the null-message demo run. -/
def c1S0 : Table :=
  match demoNullMsg._graph._nodes.select demoNullMsg.initColumns with
  | .ok t => t
  | .error _ => ⟨[], []⟩

/-- The first superstep's triplets of the null-message demo run. -/
def c1Ts : List Row :=
  match demoNullMsg.stepTriplets ((demoNullMsg._graph._edges.packStruct "edge_").cache) c1S0 with
  | .ok ts => ts
  | .error _ => []

/-- The single triplet of the null-message demo run. -/
def c1Row : Row :=
  [("src_", Val.struct [("id_", Val.int 1), ("x", Val.int 0)]),
   ("edge_", Val.struct [("src_", Val.int 1), ("dst_", Val.int 2)]),
   ("dst_", Val.struct [("id_", Val.int 2), ("x", Val.int 0)])]

/-- C1 witness: the amended statement at the null-message demo run. -/
theorem early_stop_returns_state0_witness :
    demoNullMsg.runWithStats = .ok
      ((if demoNullMsg._has_active_flag then c1S0.drop "_active_flag" else c1S0),
       { iters := 1, earlyProbes := 1, inactiveProbes := 0 }) :=
  early_stop_returns_state0 demoNullMsg c1S0 c1Ts (by rfl) (by rfl) (by decide)
    (by rfl) (by rfl)
    (by
      intro r hr m hm
      rw [show c1Ts = [c1Row] from rfl, List.mem_singleton] at hr
      subst hr
      rw [show demoNullMsg._messages = [⟨Pregel.pregel_dst "id_", Expr.lit Val.null⟩]
            from rfl,
          List.mem_singleton] at hm
      subst hm
      exact ⟨⟨Val.int 2, rfl⟩, rfl⟩)

/-! ## C10 — active-flag features without the active flag -/

theorem lookup_none {α : Type} {n : String} {l : List (String × α)}
    (h : n ∉ l.map Prod.fst) : List.lookup n l = none := by
  induction l with
  | nil => rfl
  | cons kv rest ih =>
    simp only [List.map_cons, List.mem_cons] at h
    push_neg at h
    simp only [List.lookup]
    rw [show (n == kv.1) = false from beq_eq_false_iff_ne.mpr h.1]
    exact ih h.2

theorem packStruct_mem {t : Table} {nm : String} {a : Row}
    (h : a ∈ (t.packStruct nm).rows) : ∃ r ∈ t.rows, a = [(nm, Val.struct r)] := by
  simp only [Table.packStruct, List.mem_map] at h
  obtain ⟨r, hr, ha⟩ := h
  exact ⟨r, hr, ha.symm⟩

theorem rawTriplets_mem {src dst edges : Table} {r : Row}
    (h : r ∈ rawTriplets src dst edges) :
    ∃ a ∈ src.rows, ∃ b ∈ edges.rows, ∃ c ∈ dst.rows, r = a ++ b ++ c := by
  unfold rawTriplets at h
  rw [List.mem_flatMap] at h
  obtain ⟨a, ha, h⟩ := h
  rw [List.mem_flatMap] at h
  obtain ⟨b, hb, h⟩ := h
  by_cases h1 : joinPred (a ++ b) "src_" "id_" "edge_" "src_"
  · rw [if_pos h1, List.mem_flatMap] at h
    obtain ⟨c, hc, h⟩ := h
    by_cases h2 : joinPred (b ++ c) "dst_" "id_" "edge_" "dst_"
    · rw [if_pos h2, List.mem_singleton] at h
      exact ⟨a, ha, b, hb, c, hc, h⟩
    · rw [if_neg h2] at h
      cases h
  · rw [if_neg h1] at h
    cases h

theorem activeFilterPred_missing {x sr : Row}
    (hx : List.lookup "src_" x = some (Val.struct sr))
    (hsr : List.lookup "_active_flag" sr = none) :
    activeFilterPred x = .error (.missingField "src_" "_active_flag") := by
  unfold activeFilterPred
  simp only [hx, hsr, exErr_bind]

theorem exceptFilter_cons_error {α : Type} {f : α → Except PError Bool} {x : α}
    {xs : List α} {e : PError} (h : f x = .error e) :
    exceptFilter f (x :: xs) = .error e := by
  simp [exceptFilter, h, exErr_bind]

/-- The demo configuration with `set_stop_if_all_unactive(true)` but no active
flag. -/
def demoStop : Pregel := demoPregel.set_stop_if_all_unactive true

/-- C10: when the active-flag-consuming features are enabled without
`set_has_active_flag(true)`, the `_active_flag` column is never added to the
state, and `run()` fails on the reference to the absent column instead of
treating vertices as active: with message filtering enabled the triplet filter
fails on the missing struct field, and (concretely) with the all-inactive stop
enabled the distinct probe fails on the missing column. -/
theorem active_flag_is_a_precondition (p : Pregel) (s0 : Table)
    (hflag : p._has_active_flag = false)
    (hfa : "_active_flag" ∉ p._graph._nodes.columns)
    (hfv : "_active_flag" ∉ p._vertex_cols.map (fun kv => kv.2.col_name))
    (hfil : p._filter_messages_from_non_active = true)
    (hval : p.validate = .ok ())
    (hmax : 0 < p._max_iter)
    (hs0 : p._graph._nodes.select p.initColumns = .ok s0)
    (hne : 0 < (rawTriplets (s0.packStruct "src_") (s0.packStruct "dst_")
        ((p._graph._edges.packStruct "edge_").cache)).length) :
    "_active_flag" ∉ s0.columns
    ∧ p.runWithStats = .error (PError.missingField "src_" "_active_flag")
    ∧ demoStop.runWithStats = .error (PError.missingColumn "_active_flag") := by
  have hs0c : s0.columns = p._graph._nodes.columns
      ++ p._vertex_cols.map (fun kv => kv.2.col_name) := by
    rw [(select_ok_inv hs0).1.trans (initColumns_names p)]
    simp [Pregel.stateNames, hflag]
  have hnotin : "_active_flag" ∉ s0.columns := by
    rw [hs0c]
    intro hc
    rcases List.mem_append.mp hc with hc | hc
    · exact hfa hc
    · exact hfv hc
  refine ⟨hnotin, ?_, by rfl⟩
  obtain ⟨n, hn⟩ : ∃ n, p._max_iter = n + 1 := ⟨p._max_iter - 1, by omega⟩
  simp only [Pregel.runWithStats]
  rw [hval, exOk_bind, hs0, exOk_bind, hn]
  simp only [pregelLoop]
  unfold Pregel.superstep
  simp only [Pregel.stepTriplets]
  rw [hfil]
  simp only [if_true]
  cases hts : rawTriplets (s0.packStruct "src_") (s0.packStruct "dst_")
      ((p._graph._edges.packStruct "edge_").cache) with
  | nil => rw [hts] at hne; cases hne
  | cons x xs =>
    have hx : x ∈ rawTriplets (s0.packStruct "src_") (s0.packStruct "dst_")
        ((p._graph._edges.packStruct "edge_").cache) := by
      rw [hts]; exact List.mem_cons_self x xs
    obtain ⟨a, ha, b, hb, c, hc, hshape⟩ := rawTriplets_mem hx
    obtain ⟨sr, hsr, hav⟩ := packStruct_mem ha
    have hlk : List.lookup "src_" x = some (Val.struct sr) := by
      rw [hshape, hav]
      simp [List.lookup]
    have hsrnames : sr.map Prod.fst = s0.columns := by
      have := select_ok_row_names hs0 sr hsr
      rw [this, ← (select_ok_inv hs0).1]
    have hmiss : List.lookup "_active_flag" sr = none :=
      lookup_none (by rw [hsrnames]; exact hnotin)
    have hpred := activeFilterPred_missing hlk hmiss
    rw [exceptFilter_cons_error hpred]
    rfl

/-- The demo configuration with message filtering enabled but no active
flag. -/
def demoFilter : Pregel := demoPregel.set_filter_messages_from_non_active true

/-- `State(0)` of the filtering demo. -/
def c10S0 : Table :=
  match demoFilter._graph._nodes.select demoFilter.initColumns with
  | .ok t => t
  | .error _ => ⟨[], []⟩

/-- C10 witness: the precondition failure at the concrete demo runs. -/
theorem active_flag_is_a_precondition_witness :
    "_active_flag" ∉ c10S0.columns
    ∧ demoFilter.runWithStats = .error (PError.missingField "src_" "_active_flag")
    ∧ demoStop.runWithStats = .error (PError.missingColumn "_active_flag") :=
  active_flag_is_a_precondition demoFilter c10S0 rfl (by decide) (by decide) rfl rfl
    (by decide) (by rfl) (by decide)
